import Mathlib

/-!
Shallow embedding of the conversation-session service
(`src/conversations/conversations.service.ts` and the Mongoose schemas in
`session.schema.ts` / `event.schema.ts`).

Modelling choices:
* The MongoDB collections are two Lean lists inside `DBState` (`sessions`,
  `events`); list order is insertion/storage order.
* The unique index on `sessionId` and the compound unique index on
  `(sessionId, eventId)` are reflected by the lookup functions
  `findSession` / `findEvent` (first match) and by `eventCreate`, which
  rejects an insert with `MongoError.duplicateKey` (Mongo error code 11000)
  exactly when a record with the same compound key is already stored.
* `Date` values are modelled as `Nat`; `new Date()` becomes an explicit
  `now : Nat` argument to the operations that call it.
* The schema-flexible `payload : Record<string, any>` is modelled as an
  opaque list of key/value string pairs; the service never inspects it.
* Storage faults other than the uniqueness constraint (network errors and
  the like, which any storage call may raise) are modelled by an explicit
  `fault` argument: `none` means the storage call succeeds, `some e` means
  it raises `e` without writing.  The `try/catch` blocks of the service are
  translated as matches on that outcome.
* Each operation returns `Except ServiceError result × DBState`: the thrown
  `NotFoundException` / `InternalServerErrorException` of the NestJS code
  become `ServiceError.notFound` / `ServiceError.internalError`.
-/

namespace ConvService

/-- `SessionStatus` enum of `session.schema.ts` (`ACTIVE = 'active'`,
`COMPLETED = 'completed'`). -/
inductive SessionStatus where
  | active
  | completed
deriving DecidableEq, Repr

/-- `EventType` enum of `event.schema.ts`. -/
inductive EventType where
  | message_sent
  | message_received
  | user_joined
  | user_left
deriving DecidableEq, Repr

/-- Opaque model of the Mixed `payload` field. -/
abbrev Payload : Type := List (String × String)

/-- `Session` document of `session.schema.ts`. -/
structure Session where
  sessionId : String
  status : SessionStatus
  language : String
  startedAt : Nat
  endedAt : Option Nat
deriving DecidableEq, Repr

/-- `Event` document of `event.schema.ts`. -/
structure Event where
  eventId : String
  sessionId : String
  type : EventType
  payload : Payload
  timestamp : Nat
deriving DecidableEq, Repr

/-- The two MongoDB collections. -/
structure DBState where
  sessions : List Session
  events : List Event
deriving DecidableEq, Repr

/-- `CreateSessionDto` of `dto/create-session.dto.ts`. -/
structure CreateSessionDto where
  sessionId : String
  language : String
deriving DecidableEq, Repr

/-- `CreateEventDto` of `dto/create-event.dto.ts`; `timestamp` is the parsed
value of the DTO's date string. -/
structure CreateEventDto where
  eventId : String
  type : EventType
  payload : Payload
  timestamp : Nat
deriving DecidableEq, Repr

/-- Query DTO consumed by `getSession`; its two fields are optional numbers
(the service applies the defaults itself). -/
structure PaginationDto where
  limit : Option Nat
  offset : Option Nat
deriving DecidableEq, Repr

/-- Errors a storage call can raise: the duplicate-key rejection
(code 11000) of a unique index, or any other storage failure. -/
inductive MongoError where
  | duplicateKey
  | other (msg : String)
deriving DecidableEq, Repr

/-- Errors the service surfaces: `NotFoundException` and
`InternalServerErrorException` with their message strings. -/
inductive ServiceError where
  | notFound (msg : String)
  | internalError (msg : String)
deriving DecidableEq, Repr

/-- `sessionModel.findOne({ sessionId })`. -/
def findSession (st : DBState) (sessionId : String) : Option Session :=
  st.sessions.find? (fun s => s.sessionId == sessionId)

/-- `eventModel.findOne({ sessionId, eventId })`. -/
def findEvent (st : DBState) (sessionId eventId : String) : Option Event :=
  st.events.find? (fun e => e.sessionId == sessionId && e.eventId == eventId)

/-- The atomic `sessionModel.findOneAndUpdate({ sessionId }, { $setOnInsert:
{ sessionId, language, status: ACTIVE, startedAt: new Date() } },
{ upsert: true, new: true })` of `createSession` (service lines 28-39):
if a document with the key exists it is returned unchanged ($setOnInsert
writes nothing on a match); otherwise a fresh document is inserted and
returned. -/
def sessionFindOneAndUpsert (st : DBState) (dto : CreateSessionDto) (now : Nat) :
    Session × DBState :=
  match findSession st dto.sessionId with
  | some s => (s, st)
  | none =>
      let s : Session :=
        { sessionId := dto.sessionId
          status := SessionStatus.active
          language := dto.language
          startedAt := now
          endedAt := none }
      (s, { st with sessions := st.sessions ++ [s] })

/-- `ConversationsService.createSession` (service lines 24-49).  The whole
body sits in a `try` block; `catch (error)` maps every storage failure,
whatever its code, to `InternalServerErrorException('Failed to create
session')`. -/
def createSession (st : DBState) (dto : CreateSessionDto) (now : Nat)
    (fault : Option MongoError) : Except ServiceError Session × DBState :=
  match fault with
  | some _ =>
      (Except.error (ServiceError.internalError "Failed to create session"), st)
  | none =>
      let r := sessionFindOneAndUpsert st dto now
      (Except.ok r.1, r.2)

/-- `eventModel.create({...})` under the compound unique index
`{ sessionId: 1, eventId: 1 }` of `event.schema.ts`: raises the
duplicate-key error exactly when a document with the same compound key is
stored; otherwise appends the new document. -/
def eventCreate (st : DBState) (e : Event) : Except MongoError (Event × DBState) :=
  match findEvent st e.sessionId e.eventId with
  | some _ => Except.error MongoError.duplicateKey
  | none => Except.ok (e, { st with events := st.events ++ [e] })

/-- `ConversationsService.addEvent` (service lines 51-96): check the session
exists (404 otherwise), attempt the insert, and in the `catch`: on
`error.code === 11000` re-read the stored event and return it (or report
`'Duplicate key error but event not found'` if the re-read comes back
empty); on any other error report `'Failed to add event'`. -/
def addEvent (st : DBState) (sessionId : String) (dto : CreateEventDto)
    (fault : Option String) : Except ServiceError Event × DBState :=
  match findSession st sessionId with
  | none =>
      (Except.error (ServiceError.notFound ("Session " ++ sessionId ++ " not found")), st)
  | some _ =>
      let attempt : Except MongoError (Event × DBState) :=
        match fault with
        | some msg => Except.error (MongoError.other msg)
        | none =>
            eventCreate st
              { eventId := dto.eventId
                sessionId := sessionId
                type := dto.type
                payload := dto.payload
                timestamp := dto.timestamp }
      match attempt with
      | Except.ok r => (Except.ok r.1, r.2)
      | Except.error MongoError.duplicateKey =>
          match findEvent st sessionId dto.eventId with
          | some existingEvent => (Except.ok existingEvent, st)
          | none =>
              (Except.error
                (ServiceError.internalError "Duplicate key error but event not found"), st)
      | Except.error (MongoError.other _) =>
          (Except.error (ServiceError.internalError "Failed to add event"), st)

/-- Stable insertion into a timestamp-sorted list: the inserted element goes
after every element with a strictly smaller timestamp and before the first
element whose timestamp is not smaller. -/
def insertByTimestamp (e : Event) : List Event → List Event
  | [] => [e]
  | x :: xs =>
      if x.timestamp < e.timestamp then x :: insertByTimestamp e xs
      else e :: x :: xs

/-- Model of Mongo `.sort({ timestamp: 1 })`: a stable sort by `timestamp`
ascending (ties keep storage order, as the spec leaves tie order to the
store). -/
def sortByTimestamp : List Event → List Event
  | [] => []
  | x :: xs => insertByTimestamp x (sortByTimestamp xs)

/-- Pagination metadata of `getSession`'s response. -/
structure PageInfo where
  total : Nat
  limit : Nat
  offset : Nat
  hasMore : Bool
  nextOffset : Option Nat
deriving DecidableEq, Repr

/-- Return shape of `getSession`. -/
structure GetSessionResult where
  session : Session
  events : List Event
  pageInfo : PageInfo
deriving DecidableEq, Repr

/-- `ConversationsService.getSession` (service lines 98-149): fetch the
session (404 if absent); destructure `{ limit = 50, offset = 0 }`; query the
session's events sorted by timestamp ascending with `.skip(offset)`
`.limit(limit)`; count all the session's events with
`countDocuments({ sessionId })`; derive `hasMore = offset + limit < total`
and `nextOffset = hasMore ? offset + limit : null`.  Every storage call is a
read, so the state comes back unchanged. -/
def getSession (st : DBState) (sessionId : String) (pg : PaginationDto) :
    Except ServiceError GetSessionResult × DBState :=
  match findSession st sessionId with
  | none =>
      (Except.error (ServiceError.notFound ("Session " ++ sessionId ++ " not found")), st)
  | some session =>
      let lim := pg.limit.getD 50
      let off := pg.offset.getD 0
      let sessionEvents := st.events.filter (fun e => e.sessionId == sessionId)
      let events := ((sortByTimestamp sessionEvents).drop off).take lim
      let total := sessionEvents.length
      let hasMore := decide (off + lim < total)
      let nextOffset := if off + lim < total then some (off + lim) else none
      (Except.ok
        { session := session
          events := events
          pageInfo :=
            { total := total
              limit := lim
              offset := off
              hasMore := hasMore
              nextOffset := nextOffset } }, st)

/-- The atomic `sessionModel.findOneAndUpdate({ sessionId }, { $set:
{ status: COMPLETED, endedAt: new Date() } }, { new: true })` of
`completeSession` (service lines 152-161): update the first document
matching the key by unconditionally setting the two fields, and return the
updated document; `none` when no document matches. -/
def findOneAndSetCompleted : List Session → String → Nat →
    Option (Session × List Session)
  | [], _, _ => none
  | s :: rest, sessionId, now =>
      if s.sessionId == sessionId then
        let u := { s with status := SessionStatus.completed, endedAt := some now }
        some (u, u :: rest)
      else
        match findOneAndSetCompleted rest sessionId now with
        | some r => some (r.1, s :: r.2)
        | none => none

/-- `ConversationsService.completeSession` (service lines 151-169). -/
def completeSession (st : DBState) (sessionId : String) (now : Nat) :
    Except ServiceError Session × DBState :=
  match findOneAndSetCompleted st.sessions sessionId now with
  | none =>
      (Except.error (ServiceError.notFound ("Session " ++ sessionId ++ " not found")), st)
  | some r => (Except.ok r.1, { st with sessions := r.2 })

/-- Modelled from the spec: the repository's `pagination.dto.ts` is not among
the source files (only the service and the README that consume it are), so
the query-parameter handling is taken from the spec's words: `limit` has
default 50 and a configured maximum of 100 — a supplied value above the
maximum is clamped to it — and `offset` defaults to 0 and is a plain skip
count. -/
def mkPaginationDto (rawLimit rawOffset : Option Nat) : PaginationDto :=
  { limit := rawLimit.map (fun l => min l 100)
    offset := rawOffset }

/-- Recognizer for the internal error of `addEvent`'s duplicate-key catch
whose re-read finds nothing (service lines 83-87). -/
def isDupKeyNotFoundError : Except ServiceError Event → Bool
  | Except.error (ServiceError.internalError msg) =>
      msg == "Duplicate key error but event not found"
  | _ => false

/-- The `sessions` collection holds at most one document per `sessionId`
(the unique index of `session.schema.ts`). -/
def sessionsUnique (st : DBState) : Prop :=
  (st.sessions.map Session.sessionId).Nodup

/-- One step of the session lifecycle: identity, `startedAt` and `language`
are frozen, and `status` either stays put or moves `active → completed`. -/
def sessionEvolves (s u : Session) : Prop :=
  u.sessionId = s.sessionId ∧ u.startedAt = s.startedAt ∧ u.language = s.language ∧
    (u.status = s.status ∨
      (s.status = SessionStatus.active ∧ u.status = SessionStatus.completed))

/-- A state transition that keeps the session-lifecycle invariant: uniqueness
of `sessionId` is preserved and every stored session persists, evolving only
as `sessionEvolves` allows. -/
def preservesLifecycle (st st2 : DBState) : Prop :=
  (sessionsUnique st → sessionsUnique st2) ∧
    ∀ sid s, findSession st sid = some s →
      ∃ u, findSession st2 sid = some u ∧ sessionEvolves s u

/-! ### Sample data used by the concrete witnesses -/

/-- A stored active session. -/
def sessA : Session :=
  { sessionId := "s1", status := SessionStatus.active, language := "en",
    startedAt := 3, endedAt := none }

/-- A stored event of `sessA`. -/
def evA : Event :=
  { eventId := "e1", sessionId := "s1", type := EventType.message_sent,
    payload := [("text", "hi")], timestamp := 5 }

/-- A store holding `sessA` and `evA`. -/
def stA : DBState := { sessions := [sessA], events := [evA] }

/-- The empty store. -/
def stEmpty : DBState := { sessions := [], events := [] }

/-- 150 events with distinct increasing timestamps for one session. -/
def evts150 : List Event :=
  (List.range 150).map (fun i =>
    { eventId := "e" ++ toString i, sessionId := "big",
      type := EventType.message_sent, payload := [("seq", toString i)],
      timestamp := i })

/-- The session owning `evts150`. -/
def sessBig : Session :=
  { sessionId := "big", status := SessionStatus.active, language := "en",
    startedAt := 0, endedAt := none }

/-- A store with one session and its 150 events, stored in timestamp order. -/
def stBig : DBState := { sessions := [sessBig], events := evts150 }

/-! ### Helper lemmas -/

theorem mem_insertByTimestamp (e a : Event) (l : List Event) :
    a ∈ insertByTimestamp e l ↔ a = e ∨ a ∈ l := by
  induction l with
  | nil => simp [insertByTimestamp]
  | cons x xs ih =>
    by_cases hx : x.timestamp < e.timestamp
    · simp only [insertByTimestamp, if_pos hx, List.mem_cons, ih]
      tauto
    · simp only [insertByTimestamp, if_neg hx, List.mem_cons]

theorem pairwise_insertByTimestamp (e : Event) (l : List Event)
    (h : l.Pairwise (fun a b => a.timestamp ≤ b.timestamp)) :
    (insertByTimestamp e l).Pairwise (fun a b => a.timestamp ≤ b.timestamp) := by
  induction l with
  | nil => simp [insertByTimestamp]
  | cons x xs ih =>
    rw [List.pairwise_cons] at h
    obtain ⟨hx, hxs⟩ := h
    by_cases hlt : x.timestamp < e.timestamp
    · rw [insertByTimestamp, if_pos hlt, List.pairwise_cons]
      refine ⟨?_, ih hxs⟩
      intro b hb
      rcases (mem_insertByTimestamp e b xs).1 hb with rfl | hbx
      · exact le_of_lt hlt
      · exact hx b hbx
    · rw [insertByTimestamp, if_neg hlt, List.pairwise_cons]
      refine ⟨?_, List.pairwise_cons.2 ⟨hx, hxs⟩⟩
      intro b hb
      rcases List.mem_cons.1 hb with rfl | hbx
      · exact le_of_not_lt hlt
      · exact le_trans (le_of_not_lt hlt) (hx b hbx)

theorem sortByTimestamp_pairwise (l : List Event) :
    (sortByTimestamp l).Pairwise (fun a b => a.timestamp ≤ b.timestamp) := by
  induction l with
  | nil => simp [sortByTimestamp]
  | cons x xs ih => exact pairwise_insertByTimestamp x (sortByTimestamp xs) ih

theorem mem_sortByTimestamp (a : Event) (l : List Event) :
    a ∈ sortByTimestamp l ↔ a ∈ l := by
  induction l with
  | nil => simp [sortByTimestamp]
  | cons x xs ih =>
    rw [sortByTimestamp, mem_insertByTimestamp, ih, List.mem_cons]

theorem length_insertByTimestamp (e : Event) (l : List Event) :
    (insertByTimestamp e l).length = l.length + 1 := by
  induction l with
  | nil => rfl
  | cons x xs ih =>
    by_cases hx : x.timestamp < e.timestamp
    · simp only [insertByTimestamp, if_pos hx, List.length_cons, ih]
    · simp only [insertByTimestamp, if_neg hx, List.length_cons]

theorem length_sortByTimestamp (l : List Event) :
    (sortByTimestamp l).length = l.length := by
  induction l with
  | nil => rfl
  | cons x xs ih =>
    rw [sortByTimestamp, length_insertByTimestamp, ih, List.length_cons]

theorem sessionEvolves_refl (s : Session) : sessionEvolves s s :=
  ⟨rfl, rfl, rfl, Or.inl rfl⟩

theorem sessionEvolves_complete (s : Session) (now : Nat) :
    sessionEvolves s { s with status := SessionStatus.completed, endedAt := some now } := by
  refine ⟨rfl, rfl, rfl, ?_⟩
  cases hstat : s.status with
  | active => exact Or.inr ⟨rfl, rfl⟩
  | completed => exact Or.inl rfl

theorem preservesLifecycle_of_sessions_eq (st st2 : DBState)
    (h : st2.sessions = st.sessions) : preservesLifecycle st st2 := by
  constructor
  · intro hu
    unfold sessionsUnique at hu ⊢
    rw [h]
    exact hu
  · intro sid s hs
    refine ⟨s, ?_, sessionEvolves_refl s⟩
    unfold findSession at hs ⊢
    rw [h]
    exact hs

theorem addEvent_sessions_eq (st : DBState) (sessionId : String)
    (dto : CreateEventDto) (fault : Option String) :
    ((addEvent st sessionId dto fault).2).sessions = st.sessions := by
  unfold addEvent
  cases hs : findSession st sessionId with
  | none => rfl
  | some s =>
    cases fault with
    | some msg => rfl
    | none =>
      unfold eventCreate
      cases he : findEvent st sessionId dto.eventId with
      | some ev => simp [he]
      | none => simp [he]

theorem getSession_snd (st : DBState) (sessionId : String) (pg : PaginationDto) :
    (getSession st sessionId pg).2 = st := by
  unfold getSession
  cases hs : findSession st sessionId with
  | none => rfl
  | some s => rfl

theorem findOneAndSetCompleted_of_find?_none (l : List Session)
    (sessionId : String) (now : Nat)
    (h : l.find? (fun t => t.sessionId == sessionId) = none) :
    findOneAndSetCompleted l sessionId now = none := by
  induction l with
  | nil => rfl
  | cons x xs ih =>
    by_cases hx : (x.sessionId == sessionId) = true
    · simp [List.find?_cons, hx] at h
    · simp only [List.find?_cons, Bool.not_eq_true] at h hx
      rw [hx] at h
      simp only [findOneAndSetCompleted, hx, if_false, Bool.false_eq_true]
      rw [ih h]

theorem findOneAndSetCompleted_of_find?_some (l : List Session)
    (sessionId : String) (now : Nat) (s : Session)
    (h : l.find? (fun t => t.sessionId == sessionId) = some s) :
    ∃ l2, findOneAndSetCompleted l sessionId now =
        some ({ s with status := SessionStatus.completed, endedAt := some now }, l2) ∧
      l2.find? (fun t => t.sessionId == sessionId) =
        some { s with status := SessionStatus.completed, endedAt := some now } ∧
      (∀ sid2, sid2 ≠ sessionId →
        l2.find? (fun t => t.sessionId == sid2) =
          l.find? (fun t => t.sessionId == sid2)) ∧
      l2.map Session.sessionId = l.map Session.sessionId := by
  induction l with
  | nil => exact absurd h (by simp)
  | cons x xs ih =>
    by_cases hx : (x.sessionId == sessionId) = true
    · simp only [List.find?_cons, hx] at h
      obtain rfl : x = s := by injection h
      refine ⟨{ x with status := SessionStatus.completed, endedAt := some now } :: xs,
        ?_, ?_, ?_, ?_⟩
      · simp only [findOneAndSetCompleted, hx, if_true]
      · simp only [List.find?_cons, hx]
      · intro sid2 hne
        have hxeq : x.sessionId = sessionId := by simpa using hx
        have hx2 : (x.sessionId == sid2) = false := by
          rw [hxeq]
          exact beq_eq_false_iff_ne.2 (Ne.symm hne)
        simp only [List.find?_cons, hx2]
      · rfl
    · simp only [List.find?_cons, Bool.not_eq_true] at h hx
      rw [hx] at h
      obtain ⟨l2, heq, hfind, hother, hmap⟩ := ih h
      refine ⟨x :: l2, ?_, ?_, ?_, ?_⟩
      · simp only [findOneAndSetCompleted, hx, if_false, Bool.false_eq_true, heq]
      · simp only [List.find?_cons, hx]
        exact hfind
      · intro sid2 hne
        by_cases hx2 : (x.sessionId == sid2) = true
        · simp only [List.find?_cons, hx2]
        · simp only [List.find?_cons, Bool.not_eq_true] at hx2
          simp only [List.find?_cons, hx2]
          exact hother sid2 hne
      · simp [hmap]

/-! ### Claim theorems -/

/-- C1: `createSession` (createOrGet) is idempotent — when a session with the
given `sessionId` is stored, the call returns that record itself with the
store unchanged (status, `startedAt` and the stored language untouched, the
supplied language ignored); only when no record is stored does it insert one
with `status = active`, `startedAt = now` and the supplied language. -/
theorem createSession_createOrGet_idempotent (st : DBState)
    (dto : CreateSessionDto) (now : Nat) :
    (∀ s, findSession st dto.sessionId = some s →
      createSession st dto now none = (Except.ok s, st)) ∧
    (findSession st dto.sessionId = none →
      createSession st dto now none =
        (Except.ok
          { sessionId := dto.sessionId, status := SessionStatus.active,
            language := dto.language, startedAt := now, endedAt := none },
         { st with sessions := st.sessions ++
            [{ sessionId := dto.sessionId, status := SessionStatus.active,
               language := dto.language, startedAt := now, endedAt := none }] })) := by
  constructor
  · intro s hs
    simp [createSession, sessionFindOneAndUpsert, hs]
  · intro hn
    simp [createSession, sessionFindOneAndUpsert, hn]

/-- C1 witness: the call with a different language argument returns the
stored record unchanged and leaves the store as it was. -/
theorem createSession_createOrGet_idempotent_witness :
    createSession stA { sessionId := "s1", language := "fr" } 9 none =
      (Except.ok sessA, stA) :=
  (createSession_createOrGet_idempotent stA
    { sessionId := "s1", language := "fr" } 9).1 sessA (by decide)

/-- C2: replaying `addEvent` for a stored `(sessionId, eventId)` pair on an
existing session returns the already-stored event through the duplicate-key
catch, with the same success signal as a fresh insert, and the store —
hence every field of the stored event — is unchanged even though the retry
supplies different `type`, `payload` and `timestamp`. -/
theorem addEvent_replay_returns_stored (st : DBState) (sessionId : String)
    (dto : CreateEventDto) (s : Session) (ev : Event)
    (hs : findSession st sessionId = some s)
    (he : findEvent st sessionId dto.eventId = some ev) :
    addEvent st sessionId dto none = (Except.ok ev, st) := by
  simp [addEvent, eventCreate, hs, he]

/-- C2 witness: retrying `evA`'s key with a different type, payload and
timestamp returns `evA` itself and leaves the store unchanged. -/
theorem addEvent_replay_returns_stored_witness :
    addEvent stA "s1"
      { eventId := "e1", type := EventType.user_left, payload := [],
        timestamp := 99 } none = (Except.ok evA, stA) :=
  addEvent_replay_returns_stored stA "s1"
    { eventId := "e1", type := EventType.user_left, payload := [], timestamp := 99 }
    sessA evA (by decide) (by decide)

/-- C3 counterexample: the claim says a duplicate-key failure in
`createSession` is resolved locally by re-reading the winning record and
returning it; in the code the catch block (service lines 43-48) maps every
error, duplicate-key included, to the internal error, even though the
winning record is right there to re-read. -/
theorem createSession_dupkey_surfaced_cex :
    findSession stA "s1" = some sessA ∧
    createSession stA { sessionId := "s1", language := "en" } 9
        (some MongoError.duplicateKey) =
      (Except.error (ServiceError.internalError "Failed to create session"), stA) :=
  ⟨by decide, rfl⟩

/-- C3 (amended): in `createSession` a duplicate-key failure from a losing
concurrent insert is not resolved locally — the catch block surfaces every
storage failure, duplicate-key included, as the internal error "Failed to
create session" with the store unchanged; freedom from the race relies
instead on the atomicity of the upsert, which on success returns the
existing record without any error. -/
theorem createSession_fault_handling (st : DBState) (dto : CreateSessionDto)
    (now : Nat) (e : MongoError) (s : Session)
    (hs : findSession st dto.sessionId = some s) :
    createSession st dto now (some e) =
      (Except.error (ServiceError.internalError "Failed to create session"), st) ∧
    createSession st dto now none = (Except.ok s, st) := by
  constructor
  · rfl
  · simp [createSession, sessionFindOneAndUpsert, hs]

/-- C3 (amended) witness: at the concrete store, the duplicate-key outcome
is the internal error and the fault-free upsert returns the stored record. -/
theorem createSession_fault_handling_witness :
    createSession stA { sessionId := "s1", language := "en" } 9
        (some MongoError.duplicateKey) =
      (Except.error (ServiceError.internalError "Failed to create session"), stA) ∧
    createSession stA { sessionId := "s1", language := "en" } 9 none =
      (Except.ok sessA, stA) :=
  createSession_fault_handling stA { sessionId := "s1", language := "en" } 9
    MongoError.duplicateKey sessA (by decide)

/-- C5: `addEvent` on a `sessionId` with no stored session fails with
NotFound and returns the store unchanged — no event record is created by
the failing call. -/
theorem addEvent_missing_session_notFound (st : DBState) (sessionId : String)
    (dto : CreateEventDto) (fault : Option String)
    (h : findSession st sessionId = none) :
    addEvent st sessionId dto fault =
      (Except.error (ServiceError.notFound ("Session " ++ sessionId ++ " not found")), st) := by
  simp [addEvent, h]

/-- C5 witness: appending to an absent session in the empty store fails with
NotFound and stores nothing. -/
theorem addEvent_missing_session_notFound_witness :
    addEvent stEmpty "ghost"
      { eventId := "e1", type := EventType.user_joined, payload := [],
        timestamp := 0 } none =
      (Except.error (ServiceError.notFound ("Session " ++ "ghost" ++ " not found")), stEmpty) :=
  addEvent_missing_session_notFound stEmpty "ghost"
    { eventId := "e1", type := EventType.user_joined, payload := [], timestamp := 0 }
    none rfl

/-- C9: `getSession` is read-only — for every store, session id and
pagination arguments, in the success case as well as in the NotFound case,
the store after the call equals the store before it. -/
theorem getSession_read_only (st : DBState) (sessionId : String)
    (pg : PaginationDto) : (getSession st sessionId pg).2 = st :=
  getSession_snd st sessionId pg

/-- C10: the internal-error branch of `addEvent` reached when a
duplicate-key rejection is caught but the re-read finds no stored event is
unreachable — the uniqueness constraint rejects exactly when an event with
the compound key is stored, and with no deletion the re-read then finds it,
so `addEvent` never reports "Duplicate key error but event not found". -/
theorem addEvent_dup_branch_unreachable (st : DBState) (sessionId : String)
    (dto : CreateEventDto) (fault : Option String) :
    isDupKeyNotFoundError (addEvent st sessionId dto fault).1 = false := by
  unfold addEvent
  cases hs : findSession st sessionId with
  | none => simp [isDupKeyNotFoundError]
  | some s =>
    cases fault with
    | some msg => simp [isDupKeyNotFoundError]
    | none =>
      unfold eventCreate
      cases he : findEvent st sessionId dto.eventId with
      | some ev => simp [he, isDupKeyNotFoundError]
      | none => simp [he, isDupKeyNotFoundError]

/-- C4: `completeSession` sets `status = completed` and `endedAt = now` by a
single unconditional field-set with last-call-wins semantics — on any stored
session, whatever its current status and `endedAt`, the call returns the
record with `status = completed` and `endedAt` overwritten by the current
time, and the store holds that record afterwards; it fails with NotFound
exactly when no session with the id is stored. -/
theorem completeSession_spec (st : DBState) (sessionId : String) (now : Nat) :
    (findSession st sessionId = none →
      completeSession st sessionId now =
        (Except.error (ServiceError.notFound ("Session " ++ sessionId ++ " not found")), st)) ∧
    (∀ s, findSession st sessionId = some s →
      (completeSession st sessionId now).1 =
          Except.ok { s with status := SessionStatus.completed, endedAt := some now } ∧
        findSession (completeSession st sessionId now).2 sessionId =
          some { s with status := SessionStatus.completed, endedAt := some now }) := by
  constructor
  · intro hn
    unfold completeSession
    rw [findOneAndSetCompleted_of_find?_none st.sessions sessionId now hn]
  · intro s hs
    obtain ⟨l2, heq, hfind, hother, hmap⟩ :=
      findOneAndSetCompleted_of_find?_some st.sessions sessionId now s hs
    unfold completeSession
    rw [heq]
    exact ⟨rfl, hfind⟩

/-- C4 witness: completing the stored active session returns it completed
with `endedAt = 9`, and a second completion at time 11 overwrites `endedAt`
(last call wins). -/
theorem completeSession_spec_witness :
    ((completeSession stA "s1" 9).1 =
        Except.ok { sessA with status := SessionStatus.completed, endedAt := some 9 } ∧
      findSession (completeSession stA "s1" 9).2 "s1" =
        some { sessA with status := SessionStatus.completed, endedAt := some 9 }) ∧
    (completeSession (completeSession stA "s1" 9).2 "s1" 11).1 =
      Except.ok { sessA with status := SessionStatus.completed, endedAt := some 11 } := by
  refine ⟨(completeSession_spec stA "s1" 9).2 sessA (by decide), ?_⟩
  have h := (completeSession_spec (completeSession stA "s1" 9).2 "s1" 11).2
    { sessA with status := SessionStatus.completed, endedAt := some 9 } (by decide)
  exact h.1

/-- C7: every operation preserves the session lifecycle invariant — at most
one session per `sessionId`, `startedAt` and `language` frozen after the
first write, and `status` only ever moving `active → completed`. -/
theorem lifecycle_invariant_preserved (st : DBState) (dtoS : CreateSessionDto)
    (nowS : Nat) (faultS : Option MongoError) (sidE : String)
    (dtoE : CreateEventDto) (faultE : Option String) (sidG : String)
    (pg : PaginationDto) (sidC : String) (nowC : Nat) :
    preservesLifecycle st (createSession st dtoS nowS faultS).2 ∧
    preservesLifecycle st (addEvent st sidE dtoE faultE).2 ∧
    preservesLifecycle st (getSession st sidG pg).2 ∧
    preservesLifecycle st (completeSession st sidC nowC).2 := by
  refine ⟨?_, ?_, ?_, ?_⟩
  · cases faultS with
    | some e => exact preservesLifecycle_of_sessions_eq st _ rfl
    | none =>
      cases hf : findSession st dtoS.sessionId with
      | some s =>
        apply preservesLifecycle_of_sessions_eq
        simp [createSession, sessionFindOneAndUpsert, hf]
      | none =>
        have hsnd : (createSession st dtoS nowS none).2 =
            { st with sessions := st.sessions ++
              [{ sessionId := dtoS.sessionId, status := SessionStatus.active,
                 language := dtoS.language, startedAt := nowS, endedAt := none }] } := by
          simp [createSession, sessionFindOneAndUpsert, hf]
        rw [hsnd]
        constructor
        · intro hu
          unfold sessionsUnique at hu ⊢
          rw [List.map_append, List.nodup_append]
          refine ⟨hu, List.nodup_singleton _, ?_⟩
          intro a ha hmem
          have ha2 : a = dtoS.sessionId := by simpa using hmem
          obtain ⟨x, hx, hxa⟩ := List.mem_map.1 ha
          have hxnot := List.find?_eq_none.1 hf x hx
          exact hxnot (by simp [hxa, ha2])
        · intro sid s hs
          refine ⟨s, ?_, sessionEvolves_refl s⟩
          unfold findSession at hs ⊢
          rw [List.find?_append, hs]
          rfl
  · exact preservesLifecycle_of_sessions_eq st _ (addEvent_sessions_eq st sidE dtoE faultE)
  · exact preservesLifecycle_of_sessions_eq st _
      (congrArg DBState.sessions (getSession_snd st sidG pg))
  · cases hc : findOneAndSetCompleted st.sessions sidC nowC with
    | none =>
      apply preservesLifecycle_of_sessions_eq
      simp [completeSession, hc]
    | some r =>
      cases hf : findSession st sidC with
      | none =>
        rw [findOneAndSetCompleted_of_find?_none st.sessions sidC nowC hf] at hc
        exact absurd hc (by simp)
      | some s0 =>
        obtain ⟨l2, heq, hfind, hother, hmap⟩ :=
          findOneAndSetCompleted_of_find?_some st.sessions sidC nowC s0 hf
        rw [heq] at hc
        obtain rfl := Option.some.inj hc
        have hsnd : (completeSession st sidC nowC).2 = { st with sessions := l2 } := by
          simp [completeSession, heq]
        rw [hsnd]
        constructor
        · intro hu
          unfold sessionsUnique at hu ⊢
          rw [hmap]
          exact hu
        · intro sid s hs
          by_cases hsid : sid = sidC
          · subst hsid
            obtain rfl := Option.some.inj (hf.symm.trans hs)
            exact ⟨{ s0 with status := SessionStatus.completed, endedAt := some nowC },
              hfind, sessionEvolves_complete s0 nowC⟩
          · refine ⟨s, ?_, sessionEvolves_refl s⟩
            unfold findSession at hs ⊢
            rw [hother sid hsid]
            exact hs

set_option maxRecDepth 100000 in
/-- C6: for an existing session, `getSession` returns the session's events
sorted by timestamp ascending, skipping `offset` (default 0) and returning
at most `limit` (default 50) events, together with the exact total count of
the session's events (from the separate unfiltered count) and pagination
metadata `hasMore = (offset + limit < total)`,
`nextOffset = (hasMore ? offset + limit : null)`; it fails with NotFound
when the session is absent.  In particular, with the 150 stored events of
distinct increasing timestamps, `limit=50, offset=0` returns the 50
earliest with `total=150, hasMore=true, nextOffset=50`, and
`limit=50, offset=100` returns the last 50 with `hasMore=false,
nextOffset=null`. -/
theorem getSession_pagination_spec :
    (∀ (st : DBState) (sessionId : String) (pg : PaginationDto),
      findSession st sessionId = none →
        getSession st sessionId pg =
          (Except.error (ServiceError.notFound ("Session " ++ sessionId ++ " not found")), st)) ∧
    (∀ (st : DBState) (sessionId : String) (pg : PaginationDto) (s : Session),
      findSession st sessionId = some s →
      ∃ r, getSession st sessionId pg = (Except.ok r, st) ∧
        r.session = s ∧
        r.events =
          ((sortByTimestamp (st.events.filter (fun e => e.sessionId == sessionId))).drop
            (pg.offset.getD 0)).take (pg.limit.getD 50) ∧
        r.events.Pairwise (fun a b => a.timestamp ≤ b.timestamp) ∧
        (∀ e ∈ r.events, e.sessionId = sessionId) ∧
        r.events.length ≤ pg.limit.getD 50 ∧
        r.pageInfo.total = (st.events.filter (fun e => e.sessionId == sessionId)).length ∧
        r.pageInfo.limit = pg.limit.getD 50 ∧
        r.pageInfo.offset = pg.offset.getD 0 ∧
        (r.pageInfo.hasMore = true ↔
          pg.offset.getD 0 + pg.limit.getD 50 < r.pageInfo.total) ∧
        r.pageInfo.nextOffset =
          (if pg.offset.getD 0 + pg.limit.getD 50 < r.pageInfo.total
            then some (pg.offset.getD 0 + pg.limit.getD 50) else none)) ∧
    getSession stBig "big" { limit := some 50, offset := some 0 } =
      (Except.ok
        { session := sessBig
          events := evts150.take 50
          pageInfo :=
            { total := 150, limit := 50, offset := 0, hasMore := true,
              nextOffset := some 50 } }, stBig) ∧
    getSession stBig "big" { limit := some 50, offset := some 100 } =
      (Except.ok
        { session := sessBig
          events := evts150.drop 100
          pageInfo :=
            { total := 150, limit := 50, offset := 100, hasMore := false,
              nextOffset := none } }, stBig) := by
  refine ⟨?_, ?_, ?_, ?_⟩
  · intro st sessionId pg h
    simp [getSession, h]
  · intro st sessionId pg s hs
    have hgs : getSession st sessionId pg =
        (Except.ok
          { session := s
            events :=
              ((sortByTimestamp (st.events.filter (fun e => e.sessionId == sessionId))).drop
                (pg.offset.getD 0)).take (pg.limit.getD 50)
            pageInfo :=
              { total := (st.events.filter (fun e => e.sessionId == sessionId)).length
                limit := pg.limit.getD 50
                offset := pg.offset.getD 0
                hasMore := decide (pg.offset.getD 0 + pg.limit.getD 50 <
                  (st.events.filter (fun e => e.sessionId == sessionId)).length)
                nextOffset :=
                  if pg.offset.getD 0 + pg.limit.getD 50 <
                      (st.events.filter (fun e => e.sessionId == sessionId)).length
                    then some (pg.offset.getD 0 + pg.limit.getD 50)
                    else none } }, st) := by
      simp [getSession, hs]
    refine ⟨_, hgs, rfl, rfl, ?_, ?_, ?_, rfl, rfl, rfl, ?_, ?_⟩
    · exact List.Pairwise.sublist
        (List.Sublist.trans (List.take_sublist _ _) (List.drop_sublist _ _))
        (sortByTimestamp_pairwise _)
    · intro e he
      have h1 : e ∈ sortByTimestamp
          (st.events.filter (fun x => x.sessionId == sessionId)) :=
        (List.Sublist.trans (List.take_sublist _ _) (List.drop_sublist _ _)).subset he
      have h2 := (mem_sortByTimestamp e _).1 h1
      have h3 := (List.mem_filter.1 h2).2
      simpa using h3
    · simp [List.length_take]
    · simp
    · rfl
  · rfl
  · rfl

/-- C8: a supplied `limit` above the configured maximum of 100 is clamped
to 100 (defaults: limit 50, offset 0 when omitted), and for an existing
session an `offset` at or beyond the total event count yields an empty
events list while the exact total is still reported. -/
theorem pagination_bounds (st : DBState) (sessionId : String) (s : Session)
    (l off : Nat) (rawLimit : Option Nat)
    (hs : findSession st sessionId = some s) :
    (100 < l → mkPaginationDto (some l) (some off) =
      { limit := some 100, offset := some off }) ∧
    (∃ r0, getSession st sessionId (mkPaginationDto none none) = (Except.ok r0, st) ∧
      r0.pageInfo.limit = 50 ∧ r0.pageInfo.offset = 0) ∧
    ((st.events.filter (fun e => e.sessionId == sessionId)).length ≤ off →
      ∃ r, getSession st sessionId (mkPaginationDto rawLimit (some off)) =
          (Except.ok r, st) ∧
        r.events = [] ∧
        r.pageInfo.total =
          (st.events.filter (fun e => e.sessionId == sessionId)).length) := by
  refine ⟨?_, ?_, ?_⟩
  · intro hl
    simp [mkPaginationDto, Nat.min_eq_right (le_of_lt hl)]
  · unfold getSession
    rw [hs]
    exact ⟨_, rfl, rfl, rfl⟩
  · intro hoff
    have hnil : ((sortByTimestamp
        (st.events.filter (fun e => e.sessionId == sessionId))).drop off) = [] :=
      List.drop_eq_nil_of_le (by rw [length_sortByTimestamp]; exact hoff)
    unfold getSession
    rw [hs]
    refine ⟨_, rfl, ?_, rfl⟩
    simp [mkPaginationDto, hnil]

/-- C8 witness: a raw limit of 200 is clamped to 100, and on the store with
one event an offset of 5 yields no events with the exact total 1. -/
theorem pagination_bounds_witness :
    mkPaginationDto (some 200) (some 5) = { limit := some 100, offset := some 5 } ∧
    (∃ r, getSession stA "s1" (mkPaginationDto (some 200) (some 5)) =
        (Except.ok r, stA) ∧
      r.events = [] ∧ r.pageInfo.total = 1) := by
  have h := pagination_bounds stA "s1" sessA 200 5 (some 200) (by decide)
  refine ⟨h.1 (by decide), ?_⟩
  obtain ⟨r, h1, h2, h3⟩ := h.2.2 (by decide)
  exact ⟨r, h1, h2, h3.trans (by decide)⟩

/-- C6 witness: on the empty store the absent-session hypothesis is
discharged concretely and `getSession` fails with NotFound. -/
theorem getSession_pagination_spec_witness :
    getSession stEmpty "ghost" { limit := none, offset := none } =
      (Except.error (ServiceError.notFound ("Session " ++ "ghost" ++ " not found")), stEmpty) :=
  getSession_pagination_spec.1 stEmpty "ghost" { limit := none, offset := none } rfl

/-- C7 witness: at the concrete store, completing the session keeps it
present and evolves it only as the lifecycle allows. -/
theorem lifecycle_invariant_preserved_witness :
    ∃ u, findSession (completeSession stA "s1" 9).2 "s1" = some u ∧
      sessionEvolves sessA u :=
  ((lifecycle_invariant_preserved stA { sessionId := "s1", language := "en" } 0 none
      "s1" { eventId := "e9", type := EventType.user_left, payload := [], timestamp := 0 }
      none "s1" { limit := none, offset := none } "s1" 9).2.2.2).2
    "s1" sessA (by decide)

end ConvService
